import Mathlib

/-!
Verification of the RP2040 USB serial echo firmware (`src/main.rs`).

The development shallowly embeds the parts of the firmware the specification
talks about:

* the ASCII case-folding applied to inbound bytes (`make_ascii_lowercase`),
* the write-back drain loop of the interrupt handler (`drainLoop`),
* the interrupt handler `USBCTRL_IRQ` itself, as a state transition emitting
  an ordered trace of the observable calls it makes (hello write, device
  poll, serial read, display append, serial data writes),
* the straight-line start-up sequence of `main` (`mainSteps`) together with
  the global singleton registry it populates,
* the USB device configuration built in `main` (`usb_dev`).

Machine bytes (`u8`) are modelled as `Nat` values below 256; fallible serial
calls return `Option` (`none` models `Err(_)`).  The serial write primitive
is modelled as an oracle `Nat → Option Nat` giving the result of the n-th
write call of an invocation, and the unbounded `while` loop of the handler
is modelled with explicit fuel (a bound on the number of iterations), so
that non-termination shows up as fuel exhaustion.
-/

set_option maxRecDepth 8192

namespace Rp2040Echo

/-- Rust core's `u8::is_ascii_uppercase`: true exactly for bytes
`b'A'..=b'Z'` (65 to 90). -/
def is_ascii_uppercase (b : Nat) : Bool :=
  65 ≤ b && b ≤ 90

/-- Rust core's `u8::to_ascii_lowercase`, as applied in place by
`make_ascii_lowercase` at line 281 of `main.rs`: xor the byte with the
ASCII case bit `0x20` when it is an ASCII uppercase letter, leave it
unchanged otherwise. -/
def to_ascii_lowercase (b : Nat) : Nat :=
  b ^^^ (if is_ascii_uppercase b then 32 else 0)

/-- The USB device configuration assembled by the builder chain of
`main.rs` lines 152–157. -/
structure UsbDeviceConfig where
  vid : Nat
  pid : Nat
  manufacturer : String
  product : String
  serial_number : String
  device_class : Nat
deriving DecidableEq

/-- The device built in `main`: `UsbDeviceBuilder::new(bus_ref,
UsbVidPid(0x16c0, 0x27dd)).manufacturer("Fake company").product("Serial
port").serial_number("TEST").device_class(2).build()`. -/
def usb_dev : UsbDeviceConfig :=
  { vid := 0x16c0
    pid := 0x27dd
    manufacturer := "Fake company"
    product := "Serial port"
    serial_number := "TEST"
    device_class := 2 }

/-- The distinguishable steps of the straight-line body of `main`
(`main.rs` lines 104–239), in source order. -/
inductive StartupStep where
  | takePeripherals
  | initClocks
  | installBus
  | installSerial
  | installDevice
  | configureDisplay
  | installTerminal
  | unmaskUsbIrq
  | backgroundLoop
deriving DecidableEq, BEq

/-- The order in which `main` performs its steps: take the peripherals
(line 106), configure clocks (115), install `USB_BUS` (137), install
`USB_SERIAL` (148), install `USB_DEVICE` (160), bring up the display
(179–213), install `TERMINAL` (218), unmask `USBCTRL_IRQ` (223), then
enter the LED blink loop (233). -/
def mainSteps : List StartupStep :=
  [ StartupStep.takePeripherals
  , StartupStep.initClocks
  , StartupStep.installBus
  , StartupStep.installSerial
  , StartupStep.installDevice
  , StartupStep.configureDisplay
  , StartupStep.installTerminal
  , StartupStep.unmaskUsbIrq
  , StartupStep.backgroundLoop ]

/-- Which of the four global singleton slots (`USB_BUS`, `USB_SERIAL`,
`USB_DEVICE`, `TERMINAL`) hold `Some` value. -/
structure Registry where
  usb_bus : Bool
  usb_serial : Bool
  usb_device : Bool
  terminal : Bool
deriving DecidableEq

/-- Effect of one start-up step on the singleton registry: each install
step fills its slot, every other step leaves the registry unchanged. -/
def registryStep (r : Registry) : StartupStep → Registry
  | StartupStep.installBus => { r with usb_bus := true }
  | StartupStep.installSerial => { r with usb_serial := true }
  | StartupStep.installDevice => { r with usb_device := true }
  | StartupStep.installTerminal => { r with terminal := true }
  | _ => r

/-- Registry contents after running a list of start-up steps from the
all-empty initial state (the statics are all initialised to `None`). -/
def registryAt (steps : List StartupStep) : Registry :=
  steps.foldl registryStep ⟨false, false, false, false⟩

/-- C8: The USB device is constructed with vendor ID 0x16c0, product ID
0x27dd, device class code 2, and descriptor strings "Fake company"
(manufacturer), "Serial port" (product) and "TEST" (serial number). -/
theorem C8_usb_device_config :
    usb_dev.vid = 0x16c0 ∧ usb_dev.pid = 0x27dd ∧ usb_dev.device_class = 2
    ∧ usb_dev.manufacturer = "Fake company" ∧ usb_dev.product = "Serial port"
    ∧ usb_dev.serial_number = "TEST" :=
  ⟨rfl, rfl, rfl, rfl, rfl, rfl⟩

/-- C2: for every inbound byte `b` (a `u8`, hence `b < 256`), the echoed
byte `to_ascii_lowercase b` equals `b + 32` when `b` lies in the ASCII
range `'A'..'Z'` and equals `b` unchanged otherwise. -/
theorem C2_lowercase_transformation :
    ∀ b, b < 256 →
      to_ascii_lowercase b = if 65 ≤ b ∧ b ≤ 90 then b + 32 else b := by
  decide

/-- Witness for C2 at the concrete bytes `'A'` (65) and `'a'` (97). -/
theorem C2_lowercase_transformation_witness :
    to_ascii_lowercase 65 = if 65 ≤ 65 ∧ 65 ≤ 90 then 65 + 32 else 65 :=
  C2_lowercase_transformation 65 (by decide)

/-- C9: the byte transformation of the echo handler is idempotent: applying
the ASCII lowercase case-folding twice gives the same byte as applying it
once, for every byte value. -/
theorem C9_lowercase_idempotent :
    ∀ b, b < 256 →
      to_ascii_lowercase (to_ascii_lowercase b) = to_ascii_lowercase b := by
  decide

/-- Witness for C9 at the concrete byte `'B'` (66). -/
theorem C9_lowercase_idempotent_witness :
    to_ascii_lowercase (to_ascii_lowercase 66) = to_ascii_lowercase 66 :=
  C9_lowercase_idempotent 66 (by decide)

/-- C7: in `main`, the registry slots are installed in the order bus
allocator, serial class, USB device, display sink, all strictly before the
USB interrupt is unmasked; consequently at the unmask point every registry
slot is populated, so every registry read inside the interrupt handler
observes fully-initialised slots. -/
theorem C7_startup_order :
    mainSteps.indexOf StartupStep.installBus
        < mainSteps.indexOf StartupStep.installSerial
    ∧ mainSteps.indexOf StartupStep.installSerial
        < mainSteps.indexOf StartupStep.installDevice
    ∧ mainSteps.indexOf StartupStep.installDevice
        < mainSteps.indexOf StartupStep.installTerminal
    ∧ mainSteps.indexOf StartupStep.installTerminal
        < mainSteps.indexOf StartupStep.unmaskUsbIrq
    ∧ registryAt (mainSteps.takeWhile (fun s => s ≠ StartupStep.unmaskUsbIrq))
        = ⟨true, true, true, true⟩ := by
  decide

/-- The write-back drain loop of the interrupt handler (`main.rs` lines
285–290):

    let mut wr_ptr = &buf[..count];
    while !wr_ptr.is_empty() \x7b
        let _ = serial.write(wr_ptr).map(|len| \x7b
            wr_ptr = &wr_ptr[len..];
        \x7d);
    \x7d

`oracle i` is the result of the i-th `serial.write` call of this
invocation: `some len` for `Ok(len)` (`len` is at most the offered slice
length for the real primitive; `List.drop` models the slice advance) and
`none` for `Err(_)`, on which `Result::map` does nothing, so `wr_ptr` is
left unchanged and the loop iterates again.  `fuel` bounds the number of
iterations modelled; the result is the final remaining slice together
with the trace of write attempts, each recorded as the slice offered and
the result obtained. -/
def drainLoop (oracle : Nat → Option Nat) :
    Nat → Nat → List Nat → List Nat × List (List Nat × Option Nat)
  | 0, _, wr_ptr => (wr_ptr, [])
  | fuel + 1, i, wr_ptr =>
    if wr_ptr.isEmpty then (wr_ptr, [])
    else
      match oracle i with
      | some len =>
        let rest := drainLoop oracle fuel (i + 1) (wr_ptr.drop len)
        (rest.1, (wr_ptr, some len) :: rest.2)
      | none =>
        let rest := drainLoop oracle fuel (i + 1) wr_ptr
        (rest.1, (wr_ptr, none) :: rest.2)

/-- A trace of write attempts `chain`s an initial remaining slice to a
final one when every attempt offers exactly the slice remaining at that
point, a successful attempt accepting `len` bytes advances the slice start
by `len`, and a failed attempt leaves the slice unchanged. -/
inductive chain : List Nat → List (List Nat × Option Nat) → List Nat → Prop
  | nil (r : List Nat) : chain r [] r
  | ok (r : List Nat) (len : Nat) (t : List (List Nat × Option Nat))
      (r' : List Nat) :
      chain (r.drop len) t r' → chain r ((r, some len) :: t) r'
  | err (r : List Nat) (t : List (List Nat × Option Nat)) (r' : List Nat) :
      chain r t r' → chain r ((r, none) :: t) r'

/-- The termination behaviour the specification claims for the retry loop:
after the first write attempt that reports an error, no further write
attempt occurs. -/
def noAttemptAfterFirstError (tr : List (List Nat × Option Nat)) : Bool :=
  match tr.findIdx? (fun a => a.2.isNone) with
  | none => true
  | some j => tr.length = j + 1

theorem drainLoop_chain (oracle : Nat → Option Nat) (fuel i : Nat)
    (wr_ptr : List Nat) :
    chain wr_ptr (drainLoop oracle fuel i wr_ptr).2
      (drainLoop oracle fuel i wr_ptr).1 := by
  induction fuel generalizing i wr_ptr with
  | zero => exact chain.nil _
  | succ n ih =>
    show chain _ (drainLoop oracle (n + 1) i wr_ptr).2 _
    rw [drainLoop]
    by_cases h : wr_ptr.isEmpty
    · simp only [h, if_pos]
      exact chain.nil _
    · simp only [h, if_neg, Bool.false_eq_true, not_false_iff]
      cases oracle i with
      | some len => exact chain.ok _ _ _ _ (ih (i + 1) (wr_ptr.drop len))
      | none => exact chain.err _ _ _ (ih (i + 1) wr_ptr)

theorem drainLoop_stops_only_when_sent (oracle : Nat → Option Nat)
    (fuel i : Nat) (wr_ptr : List Nat) :
    (drainLoop oracle fuel i wr_ptr).1 = []
    ∨ (drainLoop oracle fuel i wr_ptr).2.length = fuel := by
  induction fuel generalizing i wr_ptr with
  | zero => exact Or.inr rfl
  | succ n ih =>
    rw [drainLoop]
    by_cases h : wr_ptr.isEmpty
    · simp only [h, if_pos]
      exact Or.inl (List.isEmpty_iff.mp h)
    · simp only [h, if_neg, Bool.false_eq_true, not_false_iff]
      cases oracle i with
      | some len =>
        rcases ih (i + 1) (wr_ptr.drop len) with h1 | h1
        · exact Or.inl h1
        · exact Or.inr (by simp [h1])
      | none =>
        rcases ih (i + 1) wr_ptr with h1 | h1
        · exact Or.inl h1
        · exact Or.inr (by simp [h1])

/-- C1 counterexample: with a one-byte outbound buffer and a write
primitive whose first call reports an error, the loop performs a second
write attempt (it retries after the error instead of stopping), refuting
the claim that no further write attempt follows the first error. -/
theorem C1_counterexample :
    noAttemptAfterFirstError (drainLoop (fun _ => none) 2 0 [104]).2 = false
    ∧ (drainLoop (fun _ => none) 2 0 [104]).2
        = [([104], none), ([104], none)] := by
  refine ⟨?_, ?_⟩ <;> rfl

/-- C1 (amended): for every outbound buffer and every behaviour of the
serial write primitive, each iteration of the retry loop attempts a write
of exactly the remaining unsent slice; on success the slice start advances
by the number of bytes accepted, while on error the slice is left
unchanged and the attempt is retried.  The loop stops (within any finite
iteration bound) only once the whole buffer has been sent: a write error
never terminates it, so when the remaining slice is non-empty the loop has
consumed its entire iteration bound. -/
theorem C1_drain_retry_loop (oracle : Nat → Option Nat) (fuel : Nat)
    (wr_ptr : List Nat) :
    chain wr_ptr (drainLoop oracle fuel 0 wr_ptr).2
      (drainLoop oracle fuel 0 wr_ptr).1
    ∧ ((drainLoop oracle fuel 0 wr_ptr).1 = []
       ∨ (drainLoop oracle fuel 0 wr_ptr).2.length = fuel) :=
  ⟨drainLoop_chain oracle fuel 0 wr_ptr,
   drainLoop_stops_only_when_sent oracle fuel 0 wr_ptr⟩

/-- The observable calls the interrupt handler makes, in the order it
makes them: the one-time hello write, the device poll, the serial read,
the display append, and the drain-loop serial writes.  Write events record
the bytes offered and the result obtained (`none` models `Err(_)`); the
read event records `none` for `Err(_)` and `some count` for `Ok(count)`. -/
inductive Event where
  | helloWrite (data : List Nat) (res : Option Nat)
  | poll (res : Bool)
  | readCall (res : Option Nat)
  | displayWrite (data : List Nat)
  | serialWrite (data : List Nat) (res : Option Nat)
deriving DecidableEq

/-- The state the interrupt handler carries across invocations: the
`SAID_HELLO` atomic flag and the bytes appended so far to the terminal
(the display sink, write-only for the handler). -/
structure HandlerState where
  saidHello : Bool
  display : List Nat
deriving DecidableEq

/-- The behaviour of the hardware and USB stack during one interrupt
invocation: the result of the hello write (if attempted), of
`usb_dev.poll`, of `serial.read` — `none` for `Err(_)`, otherwise the
count returned by `Ok(count)` together with the 64-byte buffer contents
after the read — the per-call results of the drain-loop `serial.write`
calls, and the iteration bound for the drain loop. -/
structure Env where
  helloRes : Option Nat
  pollRes : Bool
  readRes : Option (Nat × List Nat)
  writeOracle : Nat → Option Nat
  fuel : Nat

/-- The greeting bytes `b"Hello, World!\r\n"` written once at start-up. -/
def helloMsg : List Nat :=
  [72, 101, 108, 108, 111, 44, 32, 87, 111, 114, 108, 100, 33, 13, 10]

/-- The interrupt handler `USBCTRL_IRQ` (`main.rs` lines 248–294) as a
state transition emitting the ordered trace of its observable calls.  If
`SAID_HELLO` is false it is set and the greeting is written, the result
discarded.  The device is then polled with the serial class; if the poll
reports activity the handler reads into a 64-byte buffer; on `Ok(count)`
with `count > 0` it appends `buf[0..count]` to the terminal, lowercases
those bytes in place, and drains `&buf[..count]` back to the host with
the retry loop.  On poll inactivity, read error, or a zero-byte read it
does nothing further. -/
def USBCTRL_IRQ (st : HandlerState) (env : Env) : HandlerState × List Event :=
  let hello : Bool := !st.saidHello
  let helloTr : List Event :=
    if hello then [Event.helloWrite helloMsg env.helloRes] else []
  let st1 : HandlerState :=
    if hello then { st with saidHello := true } else st
  if env.pollRes then
    match env.readRes with
    | none =>
        (st1, helloTr ++ [Event.poll env.pollRes, Event.readCall none])
    | some (count, buf) =>
        if count = 0 then
          (st1, helloTr ++ [Event.poll env.pollRes, Event.readCall (some 0)])
        else
          let received := buf.take count
          let st2 : HandlerState :=
            { st1 with display := st1.display ++ received }
          let wr_ptr := received.map to_ascii_lowercase
          let drained := drainLoop env.writeOracle env.fuel 0 wr_ptr
          (st2, helloTr
                ++ [Event.poll env.pollRes, Event.readCall (some count),
                    Event.displayWrite received]
                ++ drained.2.map (fun a => Event.serialWrite a.1 a.2))
  else
    (st1, helloTr ++ [Event.poll env.pollRes])

/-- A run of successive interrupt invocations: thread the handler state
through the list of per-invocation environments, collecting each
invocation's trace. -/
def run (st : HandlerState) : List Env → HandlerState × List (List Event)
  | [] => (st, [])
  | e :: es =>
    let step := USBCTRL_IRQ st e
    let rest := run step.1 es
    (rest.1, step.2 :: rest.2)

/-- Recogniser for the hello greeting write event. -/
def Event.isHello : Event → Bool
  | .helloWrite _ _ => true
  | _ => false

/-- Recogniser for the device poll event. -/
def Event.isPoll : Event → Bool
  | .poll _ => true
  | _ => false

/-- Recogniser for the serial read event. -/
def Event.isRead : Event → Bool
  | .readCall _ => true
  | _ => false

/-- Recogniser for the display append event. -/
def Event.isDisplay : Event → Bool
  | .displayWrite _ => true
  | _ => false

/-- Recogniser for a drain-loop serial write of inbound data (the hello
greeting write is not one of these). -/
def Event.isDataWrite : Event → Bool
  | .serialWrite _ _ => true
  | _ => false

/-- Recogniser for any write call on the serial class instance, the hello
greeting write included. -/
def Event.isSerialAccess : Event → Bool
  | .helloWrite _ _ => true
  | .serialWrite _ _ => true
  | .readCall _ => true
  | _ => false

/-- Number of hello greeting writes recorded in a trace. -/
def countHello (tr : List Event) : Nat :=
  (tr.filter Event.isHello).length

/-- The events an invocation emits before the device poll: the hello
greeting write when the `SAID_HELLO` flag is still false, nothing
otherwise. -/
def helloPart (st : HandlerState) (env : Env) : List Event :=
  if st.saidHello then [] else [Event.helloWrite helloMsg env.helloRes]

/-- The events an invocation emits after the device poll: nothing when the
poll reports no activity, otherwise the read call followed, when it
returns a positive count, by the display append and the drain-loop write
attempts. -/
def dataPart (env : Env) : List Event :=
  if env.pollRes then
    match env.readRes with
    | none => [Event.readCall none]
    | some (count, buf) =>
      if count = 0 then [Event.readCall (some 0)]
      else
        Event.readCall (some count)
          :: Event.displayWrite (buf.take count)
          :: (drainLoop env.writeOracle env.fuel 0
                ((buf.take count).map to_ascii_lowercase)).2.map
              (fun a => Event.serialWrite a.1 a.2)
  else []

/-- The bytes an invocation appends to the display: the first `count`
bytes of the read buffer if the poll reported activity and the read
returned `Ok(count)` with `count > 0`, nothing otherwise. -/
def readBytes (env : Env) : List Nat :=
  if env.pollRes then
    match env.readRes with
    | none => []
    | some (count, buf) => if count = 0 then [] else buf.take count
  else []

theorem irq_trace_eq (st : HandlerState) (env : Env) :
    (USBCTRL_IRQ st env).2
      = helloPart st env ++ Event.poll env.pollRes :: dataPart env := by
  unfold USBCTRL_IRQ helloPart dataPart
  cases hp : env.pollRes
  · cases hs : st.saidHello <;> simp [hs]
  · rcases hr : env.readRes with _ | ⟨count, buf⟩
    · cases hs : st.saidHello <;> simp [hs]
    · by_cases hc : count = 0
      · subst hc
        cases hs : st.saidHello <;> simp [hs]
      · cases hs : st.saidHello <;> simp [hs, hc]

theorem irq_saidHello (st : HandlerState) (env : Env) :
    (USBCTRL_IRQ st env).1.saidHello = true := by
  unfold USBCTRL_IRQ
  cases hp : env.pollRes
  · cases hs : st.saidHello <;> simp [hs]
  · rcases hr : env.readRes with _ | ⟨count, buf⟩
    · cases hs : st.saidHello <;> simp [hs]
    · by_cases hc : count = 0
      · subst hc
        cases hs : st.saidHello <;> simp [hs]
      · cases hs : st.saidHello <;> simp [hs, hc]

theorem irq_display (st : HandlerState) (env : Env) :
    (USBCTRL_IRQ st env).1.display = st.display ++ readBytes env := by
  unfold USBCTRL_IRQ readBytes
  cases hp : env.pollRes
  · cases hs : st.saidHello <;> simp [hs]
  · rcases hr : env.readRes with _ | ⟨count, buf⟩
    · cases hs : st.saidHello <;> simp [hs]
    · by_cases hc : count = 0
      · subst hc
        cases hs : st.saidHello <;> simp [hs]
      · cases hs : st.saidHello <;> simp [hs, hc]

theorem filter_isHello_map_serialWrite (l : List (List Nat × Option Nat)) :
    ((l.map fun a => Event.serialWrite a.1 a.2).filter Event.isHello) = [] := by
  induction l with
  | nil => rfl
  | cons a t ih => simpa [Event.isHello] using ih

theorem filter_isDisplay_map_serialWrite (l : List (List Nat × Option Nat)) :
    ((l.map fun a => Event.serialWrite a.1 a.2).filter Event.isDisplay)
      = [] := by
  induction l with
  | nil => rfl
  | cons a t ih => simpa [Event.isDisplay] using ih

theorem filter_isHello_helloPart (st : HandlerState) (env : Env) :
    ((helloPart st env).filter Event.isHello)
      = if st.saidHello then [] else [Event.helloWrite helloMsg env.helloRes] := by
  unfold helloPart
  cases st.saidHello <;> simp [Event.isHello]

theorem filter_isHello_dataPart (env : Env) :
    ((dataPart env).filter Event.isHello) = [] := by
  unfold dataPart
  cases hp : env.pollRes
  · rfl
  · rcases hr : env.readRes with _ | ⟨count, buf⟩
    · simp [Event.isHello]
    · by_cases hc : count = 0
      · subst hc
        simp [Event.isHello]
      · simp [hc, Event.isHello, filter_isHello_map_serialWrite]

theorem irq_countHello (st : HandlerState) (env : Env) :
    countHello (USBCTRL_IRQ st env).2 = if st.saidHello then 0 else 1 := by
  unfold countHello
  rw [irq_trace_eq, List.filter_append, List.filter_cons,
    filter_isHello_dataPart, filter_isHello_helloPart]
  cases st.saidHello <;> simp [Event.isHello]

theorem run_after_hello (st : HandlerState) (envs : List Env)
    (h : st.saidHello = true) :
    ((run st envs).2.map countHello) = List.replicate envs.length 0
    ∧ (run st envs).1.saidHello = true := by
  induction envs generalizing st with
  | nil => exact ⟨rfl, h⟩
  | cons e es ih =>
    have h1 : countHello (USBCTRL_IRQ st e).2 = 0 := by
      rw [irq_countHello, h]
      rfl
    obtain ⟨h2, h3⟩ := ih (USBCTRL_IRQ st e).1 (irq_saidHello st e)
    refine ⟨?_, by simpa [run] using h3⟩
    simp only [run, List.map, h1, h2, List.length_cons]
    exact (List.replicate_succ 0 es.length).symm

/-- C3: from a state in which the hello flag is still false, any run of
one or more interrupt invocations writes the greeting exactly once, on the
first invocation, and no later invocation attempts the greeting again; the
flag is true from the first invocation onwards. -/
theorem C3_hello_once (st : HandlerState) (envs : List Env)
    (h0 : st.saidHello = false) (hN : envs ≠ []) :
    ((run st envs).2.map countHello) = 1 :: List.replicate (envs.length - 1) 0
    ∧ (run st envs).1.saidHello = true := by
  cases envs with
  | nil => exact absurd rfl hN
  | cons e es =>
    have h1 : countHello (USBCTRL_IRQ st e).2 = 1 := by
      rw [irq_countHello, h0]
      rfl
    obtain ⟨h2, h3⟩ := run_after_hello (USBCTRL_IRQ st e).1 es (irq_saidHello st e)
    exact ⟨by simp [run, h1, h2], by simpa [run] using h3⟩

/-- An environment whose poll reports no activity. -/
def envNoPoll : Env :=
  ⟨none, false, none, fun _ => none, 0⟩

/-- An environment in which the poll reports activity and the read returns
two bytes `b"HI"`, while every write accepts two bytes. -/
def envRead : Env :=
  ⟨none, true, some (2, [72, 73]), fun _ => some 2, 4⟩

/-- Witness for C3: two concrete invocations from the initial state emit
the greeting exactly once, on the first invocation. -/
theorem C3_hello_once_witness :
    ((run ⟨false, []⟩ [envRead, envNoPoll]).2.map countHello)
      = 1 :: List.replicate 1 0
    ∧ (run ⟨false, []⟩ [envRead, envNoPoll]).1.saidHello = true :=
  C3_hello_once ⟨false, []⟩ [envRead, envNoPoll] rfl (List.cons_ne_nil _ _)

/-- C4: in every invocation in which the read returns `count > 0` bytes,
the bytes appended to the display sink are exactly the `count` inbound
bytes as received — untransformed, in order and in full — and the trace
contains exactly one display append, carrying those bytes (the drain-loop
writes that follow carry the transformed bytes instead). -/
theorem C4_display_mirroring (st : HandlerState) (env : Env) (count : Nat)
    (buf : List Nat) (hp : env.pollRes = true)
    (hr : env.readRes = some (count, buf)) (hc : count ≠ 0) :
    (USBCTRL_IRQ st env).1.display = st.display ++ buf.take count
    ∧ ((USBCTRL_IRQ st env).2.filter Event.isDisplay)
        = [Event.displayWrite (buf.take count)] := by
  constructor
  · rw [irq_display]
    unfold readBytes
    rw [hp, hr]
    simp [hc]
  · rw [irq_trace_eq, List.filter_append, List.filter_cons]
    have h1 : ((helloPart st env).filter Event.isDisplay) = [] := by
      unfold helloPart
      cases st.saidHello <;> simp [Event.isDisplay]
    have h2 : ((dataPart env).filter Event.isDisplay)
        = [Event.displayWrite (buf.take count)] := by
      unfold dataPart
      rw [hp, hr]
      simp [hc, Event.isDisplay, filter_isDisplay_map_serialWrite]
    simp [h1, h2, Event.isDisplay]

/-- Witness for C4: a concrete invocation reading `b"HI"` appends exactly
those two untransformed bytes to the display. -/
theorem C4_display_mirroring_witness :
    (USBCTRL_IRQ ⟨true, [5]⟩ envRead).1.display = [5] ++ [72, 73].take 2
    ∧ ((USBCTRL_IRQ ⟨true, [5]⟩ envRead).2.filter Event.isDisplay)
        = [Event.displayWrite ([72, 73].take 2)] :=
  C4_display_mirroring ⟨true, [5]⟩ envRead 2 [72, 73] rfl rfl (by decide)

/-- The ordering property the specification claims for one interrupt
entry: every read or write access to the serial class instance occurs only
after a device poll earlier in the same entry. -/
def serialAccessAfterPoll (tr : List Event) : Bool :=
  (List.range tr.length).all fun i =>
    !(Event.isSerialAccess (tr.getD i (Event.poll false)))
    || (List.range i).any fun j => Event.isPoll (tr.getD j (Event.poll false))

/-- C5 counterexample: on the first invocation (hello flag still false)
the handler writes the greeting to the serial class instance before it
polls the USB device, so the trace of a concrete first invocation violates
the claimed poll-before-access ordering. -/
theorem C5_counterexample :
    serialAccessAfterPoll (USBCTRL_IRQ ⟨false, []⟩ envNoPoll).2 = false := by
  decide

/-- C5 (amended): in every interrupt entry the serial read and every
drain-loop data write occur only after the USB device poll of that entry;
the hello greeting write, however, is the one exception: when it is
attempted it occurs before the poll, never after it. -/
theorem C5_poll_ordering (st : HandlerState) (env : Env) :
    ∃ pre post,
      (USBCTRL_IRQ st env).2 = pre ++ Event.poll env.pollRes :: post
      ∧ (∀ e ∈ pre, e.isRead = false ∧ e.isDataWrite = false)
      ∧ (∀ e ∈ post, e.isHello = false) := by
  refine ⟨helloPart st env, dataPart env, irq_trace_eq st env, ?_, ?_⟩
  · intro e he
    unfold helloPart at he
    cases hs : st.saidHello
    · rw [hs] at he
      simp only [if_neg Bool.false_ne_true, List.mem_singleton] at he
      subst he
      exact ⟨rfl, rfl⟩
    · rw [hs] at he
      simp at he
  · intro e he
    unfold dataPart at he
    cases hp : env.pollRes
    · rw [hp] at he
      simp at he
    · rw [hp] at he
      rcases hr : env.readRes with _ | ⟨count, buf⟩
      · rw [hr] at he
        simp only [if_pos, List.mem_singleton] at he
        subst he
        rfl
      · rw [hr] at he
        by_cases hc : count = 0
        · subst hc
          simp only [if_pos, List.mem_singleton, reduceIte] at he
          subst he
          rfl
        · simp only [if_pos, if_neg hc, List.mem_cons, List.mem_map] at he
          rcases he with he | he | ⟨a, _, he⟩ <;> subst he <;> rfl

/-- C6: an invocation in which the poll reports no activity, or the read
returns an error or zero bytes, leaves the display unchanged and performs
neither a display append nor any drain-loop data write (only the one-time
hello greeting may still be written). -/
theorem C6_no_activity_frame (st : HandlerState) (env : Env)
    (h : env.pollRes = false ∨ env.readRes = none
         ∨ ∃ buf, env.readRes = some (0, buf)) :
    (USBCTRL_IRQ st env).1.display = st.display
    ∧ ((USBCTRL_IRQ st env).2.filter
        (fun e => e.isDisplay || e.isDataWrite)) = [] := by
  have hpre : ((helloPart st env).filter
      (fun e => e.isDisplay || e.isDataWrite)) = [] := by
    unfold helloPart
    cases st.saidHello <;> simp [Event.isDisplay, Event.isDataWrite]
  have hdata : ((dataPart env).filter
      (fun e => e.isDisplay || e.isDataWrite)) = [] := by
    unfold dataPart
    rcases h with hp | hr | ⟨buf, hr⟩
    · rw [hp]
      rfl
    · rw [hr]
      cases env.pollRes <;> simp [Event.isDisplay, Event.isDataWrite]
    · rw [hr]
      cases env.pollRes <;> simp [Event.isDisplay, Event.isDataWrite]
  have hbytes : readBytes env = [] := by
    unfold readBytes
    rcases h with hp | hr | ⟨buf, hr⟩
    · rw [hp]
      rfl
    · rw [hr]
      cases env.pollRes <;> simp
    · rw [hr]
      cases env.pollRes <;> simp
  refine ⟨by rw [irq_display, hbytes, List.append_nil], ?_⟩
  rw [irq_trace_eq, List.filter_append, List.filter_cons, hpre, hdata]
  simp [Event.isDisplay, Event.isDataWrite]

/-- Witness for C6: a concrete invocation whose poll reports no activity
mutates no display state and emits no display or data-write event. -/
theorem C6_no_activity_frame_witness :
    (USBCTRL_IRQ ⟨false, [3]⟩ envNoPoll).1.display = [3]
    ∧ ((USBCTRL_IRQ ⟨false, [3]⟩ envNoPoll).2.filter
        (fun e => e.isDisplay || e.isDataWrite)) = [] :=
  C6_no_activity_frame ⟨false, [3]⟩ envNoPoll (Or.inl rfl)

/-- C10: the handler's entire observable behaviour depends only on the
first `count` bytes of the 64-byte read buffer: two reads returning the
same positive `count < 64` and buffers agreeing on indices `0..count`
produce identical final states and identical traces, so the stale bytes at
indices `count..64` never reach the display or the host. -/
theorem C10_only_first_count_bytes (st : HandlerState) (env : Env)
    (count : Nat) (buf1 buf2 : List Nat) (hc : 0 < count) (_hlt : count < 64)
    (hagree : buf1.take count = buf2.take count) :
    USBCTRL_IRQ st { env with readRes := some (count, buf1) }
      = USBCTRL_IRQ st { env with readRes := some (count, buf2) } := by
  have hc' : count ≠ 0 := Nat.pos_iff_ne_zero.mp hc
  cases hp : env.pollRes <;>
    simp [USBCTRL_IRQ, hp, hc', hagree]

/-- Witness for C10: two concrete read buffers agreeing on their first two
bytes but differing at index 2 yield identical handler behaviour when the
read count is 2. -/
theorem C10_only_first_count_bytes_witness :
    USBCTRL_IRQ ⟨false, []⟩ { envNoPoll with readRes := some (2, [72, 73, 200]) }
      = USBCTRL_IRQ ⟨false, []⟩ { envNoPoll with readRes := some (2, [72, 73, 7]) } :=
  C10_only_first_count_bytes ⟨false, []⟩ envNoPoll 2 [72, 73, 200] [72, 73, 7]
    (by decide) (by decide) rfl

end Rp2040Echo
